import Mathlib

/-!
Shallow embedding of the wsp reverse-proxy server core (server/server.go):
the pool registry, the registration handshake, the periodic sweep, the
dispatcher loop and server shutdown.  `Pool`, `Connection` and `Config`
live in files of the repository that are not part of the given source,
so their behaviour is modelled from the spec where a claim needs it;
everything else is translated directly from `server.go`.
-/

namespace Wsp

/-- Connection status: the tri-state machine Idle / Busy / Closed. -/
inductive ConnStatus
  | Idle
  | Busy
  | Closed
deriving DecidableEq, Repr

/-- One persistent transport link to a backend agent.  `connId` stands for
the underlying websocket handle, `status` is the atomically updated state. -/
structure Connection where
  connId : Nat
  status : ConnStatus
deriving DecidableEq, Repr

def ConnStatus.isClosed : ConnStatus → Bool
  | ConnStatus.Closed => true
  | _ => false

/-- Modelled from the spec (`Connection.take`, connection code absent from
the given source): the atomic compare-and-swap Idle → Busy; returns whether
it succeeded together with the resulting connection. -/
def Connection.Take (c : Connection) : Bool × Connection :=
  if c.status = ConnStatus.Idle then (true, { c with status := ConnStatus.Busy })
  else (false, c)

/-- Modelled from the spec (`Connection.close`): any state → Closed. -/
def Connection.close (c : Connection) : Connection :=
  { c with status := ConnStatus.Closed }

/-- A named pool of connections for one agent identity.  `size` is the
declared size from the greeting (advisory), `conns` the connection set. -/
structure Pool where
  id : String
  size : Int
  conns : List Connection
deriving DecidableEq, Repr

/-- Modelled from the spec (`Pool.IsEmpty`, pool code absent from the given
source): a pool is empty iff it has zero live (non-Closed) connections. -/
def Pool.IsEmpty (p : Pool) : Bool :=
  p.conns.all (fun c => c.status.isClosed)

/-- Modelled from the spec (`Pool.Shutdown`): closes every connection. -/
def Pool.Shutdown (p : Pool) : Pool :=
  { p with conns := p.conns.map Connection.close }

/-- Modelled from the spec (`Pool.Register`): wraps a freshly upgraded
transport as a new Idle connection added to the pool. -/
def Pool.RegisterConn (p : Pool) (ws : Nat) : Pool :=
  { p with conns := p.conns ++ [{ connId := ws, status := ConnStatus.Idle }] }

/-- `NewPool(server, id)` of the repository: a fresh pool for `id`. -/
def NewPool (id : String) : Pool :=
  { id := id, size := 0, conns := [] }

/-! ### Greeting parsing (`Server.Register`, steps 2 of server.go)

The handler splits the greeting on `"_"` (Go `strings.Split`), takes
`split[0]` as the pool id and `strconv.Atoi(split[1])` as the size.
`"_"` is a single ASCII byte, so Go's byte-wise split coincides with a
character-level split. -/

/-- Go `strings.Split(s, "_")`: split on every underscore, keeping empty
fields; the result always has at least one element. -/
def splitUS : List Char → List (List Char)
  | [] => [[]]
  | c :: rest =>
    let r := splitUS rest
    if c = '_' then [] :: r
    else
      match r with
      | [] => [[c]]
      | g :: gs => (c :: g) :: gs

/-- Numeric value of a digit string (most significant first). -/
def digitsVal (cs : List Char) : Nat :=
  cs.foldl (fun a c => 10 * a + (c.toNat - '0'.toNat)) 0

/-- Go `strconv.Atoi`: optional sign, then one or more decimal digits,
failing on anything else or on 64-bit `int` overflow. -/
def Atoi (cs : List Char) : Option Int :=
  let sd : Int × List Char :=
    match cs with
    | '+' :: rest => (1, rest)
    | '-' :: rest => (-1, rest)
    | _ => (1, cs)
  if sd.2.isEmpty then none
  else if sd.2.all Char.isDigit then
    let n : Int := sd.1 * (digitsVal sd.2 : Int)
    if -(2 ^ 63) ≤ n ∧ n < 2 ^ 63 then some n else none
  else none

/-- Outcome of parsing the greeting message in `Server.Register`. -/
inductive GreetingParse
  | oobPanic
  | parseErr
  | ok (id : String) (size : Int)
deriving DecidableEq, Repr

/-- The greeting-parsing step of `Server.Register`: `split[0]` is the id;
accessing `split[1]` panics (index out of range) when the greeting holds no
underscore; a failing `strconv.Atoi` writes an error and closes the
websocket. -/
def parseGreeting (greeting : String) : GreetingParse :=
  match splitUS greeting.toList with
  | [] => GreetingParse.oobPanic
  | [_] => GreetingParse.oobPanic
  | idCs :: szCs :: _ =>
    match Atoi szCs with
    | none => GreetingParse.parseErr
    | some n => GreetingParse.ok (String.mk idCs) n

/-- Step 3 of `Server.Register`: look the pool up by id, reuse it when
present (updating its declared size), create and append it otherwise, then
register the websocket into it. -/
def updatePools : List Pool → String → Int → Nat → List Pool
  | [], id, n, ws => [Pool.RegisterConn { NewPool id with size := n } ws]
  | p :: ps, id, n, ws =>
    if p.id = id then Pool.RegisterConn { p with size := n } ws :: ps
    else p :: updatePools ps id n ws

/-- Result of running `Server.Register` from the greeting message on. -/
inductive RegisterResult
  | panicked
  | aborted
  | registered (pools : List Pool)
deriving DecidableEq, Repr

/-- `Server.Register` from the point the greeting has been read: parse it,
abort (closing the websocket, pools untouched) on an Atoi failure, panic on
a missing underscore, otherwise register the connection into the pools. -/
def RegisterGreeting (pools : List Pool) (greeting : String) (ws : Nat) :
    RegisterResult :=
  match parseGreeting greeting with
  | GreetingParse.oobPanic => RegisterResult.panicked
  | GreetingParse.parseErr => RegisterResult.aborted
  | GreetingParse.ok id n => RegisterResult.registered (updatePools pools id n ws)

/-! ### The sweep (`Server.clean`)

`clean` walks the pool list once: an empty pool is shut down and dropped,
any other pool is kept, in order.  The Go loop appends the kept pools to a
fresh slice and reassigns `s.pools`; we return both the kept list and the
removed (shut down) pools. -/

/-- The loop body of `Server.clean`: first component the kept pools, second
the removed pools after their `Shutdown()`. -/
def cleanLoop : List Pool → List Pool × List Pool
  | [] => ([], [])
  | p :: ps =>
    let r := cleanLoop ps
    if p.IsEmpty then (r.1, Pool.Shutdown p :: r.2)
    else (p :: r.1, r.2)

/-- `Server.clean`: returns unchanged on an already-empty pool list
(the early `return`), otherwise sweeps. -/
def clean (pools : List Pool) : List Pool × List Pool :=
  if pools.isEmpty then (pools, []) else cleanLoop pools

/-! ### The dispatcher (`Server.dispatchConnections`)

One pass of the inner `for` loop (label `L`) does, in order: the
non-blocking `ctx.Done()` check, the pool-list snapshot under `RLock`
(breaking when it is empty), the dynamic `reflect.Select` over every
pool's idle channel plus a default case, and — when a connection token was
received — `connection.Take()`, delivering on success and retrying on
failure.  Each `Iter` records what the environment supplied to one such
pass: the time at the deadline check, the pool snapshot, and the
`reflect.Select` outcome (`none` for the default case or a closed channel,
`some c` for a received connection token whose status at `Take` time is
`c.status`). -/

/-- Environment of one pass of the dispatcher's inner loop. -/
structure Iter where
  time : Nat
  pools : List Pool
  sel : Option Connection
deriving DecidableEq, Repr

/-- Resolution of one `ConnectionRequest` by the dispatcher. -/
inductive DispatchStatus
  | Matched (c : Connection)
  | TimedOut
  | Unavailable
  | Scanning
deriving DecidableEq, Repr

/-- `context.WithTimeout`: the context's deadline is the current time plus
the configured timeout (`s.Config.GetTimeout()`). -/
def withTimeout (now timeoutCfg : Nat) : Nat := now + timeoutCfg

/-- The dispatcher's inner loop for one request, with deadline `d`, run
against the schedule of environment passes: returns the index of the pass
at which the loop terminates together with the resolution (`Scanning` when
the schedule runs out while the loop would still be spinning). -/
def dispatchSteps (d : Nat) : List Iter → Nat × DispatchStatus
  | [] => (0, DispatchStatus.Scanning)
  | it :: rest =>
    if d ≤ it.time then (0, DispatchStatus.TimedOut)
    else if it.pools.isEmpty then (0, DispatchStatus.Unavailable)
    else
      match it.sel with
      | none =>
        let r := dispatchSteps d rest
        (r.1 + 1, r.2)
      | some c =>
        let t := c.Take
        if t.1 then (0, DispatchStatus.Matched t.2)
        else
          let r := dispatchSteps d rest
          (r.1 + 1, r.2)

/-- The resolution of one request's dispatch. -/
def dispatchLoop (d : Nat) (sched : List Iter) : DispatchStatus :=
  (dispatchSteps d sched).2

/-- The connections sent into the request's single-slot channel before
`close(request.connection)`: one on a match, none otherwise. -/
def deliveries : DispatchStatus → List Connection
  | DispatchStatus.Matched c => [c]
  | _ => []

/-- Whether `close(request.connection)` has run: true whenever the inner
loop terminated, false only while still scanning. -/
def slotClosed : DispatchStatus → Bool
  | DispatchStatus.Scanning => false
  | _ => true

/-! ### The request handler (`Server.Request`) up to dispatch -/

/-- How `Server.Request` proceeds before any dispatch is attempted. -/
inductive RequestStep
  | missingHeader
  | badHeader
  | noProxy
  | dispatch
deriving DecidableEq, Repr

/-- The checks of `Server.Request` before submitting a `ConnectionRequest`:
missing `X-PROXY-DESTINATION` header, unparsable destination URL
(`parseOk` stands for `url.Parse` succeeding), then the `len(s.pools)==0`
pre-check replying "No proxy available". -/
def handleRequestPre (dst : String) (parseOk : Bool) (pools : List Pool) :
    RequestStep :=
  if dst = "" then RequestStep.missingHeader
  else if parseOk = false then RequestStep.badHeader
  else if pools.isEmpty then RequestStep.noProxy
  else RequestStep.dispatch

/-! ### Server state, operations, shutdown -/

/-- The server state the claims touch: the pool registry and the two
channels closed at shutdown. -/
structure ServerState where
  pools : List Pool
  doneClosed : Bool
  dispatcherClosed : Bool
deriving DecidableEq, Repr

/-- `Server.Shutdown`: close `done`, close `dispatcher`, shut every pool
down, then run `clean` once more. -/
def ServerState.shutdownServer (s : ServerState) : ServerState :=
  { pools := (clean (s.pools.map Pool.Shutdown)).1
  , doneClosed := true
  , dispatcherClosed := true }

/-- Result of `request, ok := <-s.dispatcher` in the dispatcher's outer
consumption loop. -/
inductive RecvResult
  | gotRequest (r : Nat)
  | chanClosed
  | blocked
deriving DecidableEq, Repr

/-- A receive on the unbuffered `dispatcher` channel: a pending send
rendezvouses first; on a closed channel with no pending send the receive
returns `ok = false` (`chanClosed`), upon which the outer loop breaks;
an open empty channel blocks. -/
def recvDispatcher (closed : Bool) (pending : List Nat) : RecvResult :=
  match pending with
  | r :: _ => RecvResult.gotRequest r
  | [] => if closed then RecvResult.chanClosed else RecvResult.blocked

/-- The structural mutations of the pool registry, each taking the
exclusive lock: a registration handshake (from its greeting), the periodic
sweep, and shutdown. -/
inductive ServerOp
  | register (greeting : String) (ws : Nat)
  | sweep
  | shutdown
deriving DecidableEq, Repr

/-- Effect of one registry operation on the pool list.  A registration
whose greeting aborts or panics leaves the pools untouched. -/
def applyOp (pools : List Pool) : ServerOp → List Pool
  | ServerOp.register g ws =>
    match RegisterGreeting pools g ws with
    | RegisterResult.registered ps => ps
    | _ => pools
  | ServerOp.sweep => (clean pools).1
  | ServerOp.shutdown => (clean (pools.map Pool.Shutdown)).1

/-- At most one pool per identity: the pool ids are pairwise distinct. -/
def distinctIds (pools : List Pool) : Prop :=
  (pools.map Pool.id).Nodup

instance (pools : List Pool) : Decidable (distinctIds pools) :=
  inferInstanceAs (Decidable ((pools.map Pool.id).Nodup))

/-! ### Helper lemmas -/

theorem registerConn_id (p : Pool) (ws : Nat) : (Pool.RegisterConn p ws).id = p.id := by
  rfl

theorem take_true_busy (c : Connection) (h : (Connection.Take c).1 = true) :
    (Connection.Take c).2.status = ConnStatus.Busy := by
  unfold Connection.Take at h ⊢
  by_cases hc : c.status = ConnStatus.Idle
  · simp [hc]
  · simp [hc] at h

theorem take_false_eq (c : Connection) (h : (Connection.Take c).1 = false) :
    (Connection.Take c).2 = c := by
  unfold Connection.Take at h ⊢
  by_cases hc : c.status = ConnStatus.Idle
  · simp [hc] at h
  · simp [hc]

theorem updatePools_ids_of_mem (pools : List Pool) (id : String) (n : Int) (ws : Nat)
    (h : id ∈ pools.map Pool.id) :
    (updatePools pools id n ws).map Pool.id = pools.map Pool.id := by
  induction pools with
  | nil => simp at h
  | cons p ps ih =>
    by_cases hp : p.id = id
    · simp [updatePools, hp, registerConn_id]
    · have h2 : id ∈ ps.map Pool.id := by
        rcases List.mem_map.mp h with ⟨q, hq, hqid⟩
        rcases List.mem_cons.mp hq with hq1 | hq1
        · exact absurd (hq1 ▸ hqid) hp
        · exact List.mem_map.mpr ⟨q, hq1, hqid⟩
      simp [updatePools, hp, ih h2]

theorem updatePools_ids_of_not_mem (pools : List Pool) (id : String) (n : Int) (ws : Nat)
    (h : id ∉ pools.map Pool.id) :
    (updatePools pools id n ws).map Pool.id = pools.map Pool.id ++ [id] := by
  induction pools with
  | nil => simp [updatePools, registerConn_id, NewPool]
  | cons p ps ih =>
    have hp : p.id ≠ id := by
      intro hc
      exact h (List.mem_map.mpr ⟨p, List.mem_cons_self p ps, hc⟩)
    have h2 : id ∉ ps.map Pool.id := by
      intro hc
      rcases List.mem_map.mp hc with ⟨q, hq, hqid⟩
      exact h (List.mem_map.mpr ⟨q, List.mem_cons_of_mem p hq, hqid⟩)
    simp [updatePools, hp, ih h2]

theorem updatePools_find_size (pools : List Pool) (id : String) (n : Int) (ws : Nat) :
    ∃ p, (updatePools pools id n ws).find? (fun q => q.id == id) = some p ∧
      p.size = n ∧ p.id = id := by
  induction pools with
  | nil =>
    refine ⟨Pool.RegisterConn { NewPool id with size := n } ws, ?_, rfl, rfl⟩
    simp [updatePools, List.find?, Pool.RegisterConn, NewPool]
  | cons p ps ih =>
    by_cases hp : p.id = id
    · refine ⟨Pool.RegisterConn { p with size := n } ws, ?_, rfl, hp⟩
      simp [updatePools, hp, List.find?, Pool.RegisterConn]
    · rcases ih with ⟨q, hq, hqs, hqid⟩
      refine ⟨q, ?_, hqs, hqid⟩
      simp [updatePools, hp, List.find?]
      exact hq

/-! ### Claim theorems -/

/-- C1: the claim says a greeting with a wrong field count (no `_`
separator, e.g. `"agent1"`) aborts the handshake gracefully.  In the code
`strings.Split` then yields a single field and `split[1]` panics with an
index-out-of-range; the error reply and `ws.Close()` never run.  A
non-numeric size field does abort as claimed. -/
theorem register_no_separator_panics (pools : List Pool) (ws : Nat) :
    RegisterGreeting pools "agent1" ws = RegisterResult.panicked
    ∧ RegisterGreeting pools "agent1_x" ws = RegisterResult.aborted := by
  constructor
  · unfold RegisterGreeting
    rw [show parseGreeting "agent1" = GreetingParse.oobPanic from by decide]
  · unfold RegisterGreeting
    rw [show parseGreeting "agent1_x" = GreetingParse.parseErr from by decide]

/-- C7: registration is lookup-or-create: on a well-formed greeting with
identity `id` and size `n`, an existing pool for `id` is reused (the id
list is unchanged), otherwise a new pool for `id` is appended; in both
cases the pool found under `id` afterwards has declared size `n`. -/
theorem register_is_lookupOrCreate (pools ps : List Pool) (g : String)
    (ws : Nat) (id : String) (n : Int)
    (hp : parseGreeting g = GreetingParse.ok id n)
    (hr : RegisterGreeting pools g ws = RegisterResult.registered ps) :
    (id ∈ pools.map Pool.id → ps.map Pool.id = pools.map Pool.id)
    ∧ (id ∉ pools.map Pool.id → ps.map Pool.id = pools.map Pool.id ++ [id])
    ∧ ∃ p, ps.find? (fun q => q.id == id) = some p ∧ p.size = n := by
  unfold RegisterGreeting at hr
  rw [hp] at hr
  have hps : ps = updatePools pools id n ws := by
    cases hr
    rfl
  subst hps
  refine ⟨fun h => updatePools_ids_of_mem pools id n ws h,
    fun h => updatePools_ids_of_not_mem pools id n ws h, ?_⟩
  rcases updatePools_find_size pools id n ws with ⟨p, hf, hs, _⟩
  exact ⟨p, hf, hs⟩

theorem register_is_lookupOrCreate_witness :
    ∃ p, (updatePools [] "agent1" 3 0).find? (fun q => q.id == "agent1") = some p
      ∧ p.size = 3 :=
  (register_is_lookupOrCreate [] (updatePools [] "agent1" 3 0) "agent1_3" 0
    "agent1" 3 (by decide) rfl).2.2

theorem cleanLoop_fst (pools : List Pool) :
    (cleanLoop pools).1 = pools.filter (fun p => !p.IsEmpty) := by
  induction pools with
  | nil => rfl
  | cons p ps ih =>
    by_cases hp : p.IsEmpty = true
    · simp [cleanLoop, hp, ih, List.filter]
    · simp [cleanLoop, hp, ih, List.filter]

theorem cleanLoop_snd (pools : List Pool) :
    (cleanLoop pools).2 = (pools.filter (fun p => p.IsEmpty)).map Pool.Shutdown := by
  induction pools with
  | nil => rfl
  | cons p ps ih =>
    by_cases hp : p.IsEmpty = true
    · simp [cleanLoop, hp, ih, List.filter]
    · simp [cleanLoop, hp, ih, List.filter]

theorem clean_fst (pools : List Pool) :
    (clean pools).1 = pools.filter (fun p => !p.IsEmpty) := by
  unfold clean
  by_cases h : pools.isEmpty = true
  · rw [List.isEmpty_iff] at h
    subst h
    rfl
  · simp only [h, if_false, Bool.false_eq_true]
    exact cleanLoop_fst pools

theorem clean_snd (pools : List Pool) :
    (clean pools).2 = (pools.filter (fun p => p.IsEmpty)).map Pool.Shutdown := by
  unfold clean
  by_cases h : pools.isEmpty = true
  · rw [List.isEmpty_iff] at h
    subst h
    rfl
  · simp only [h, if_false, Bool.false_eq_true]
    exact cleanLoop_snd pools

theorem updatePools_nodup (pools : List Pool) (id : String) (n : Int) (ws : Nat)
    (h : distinctIds pools) : distinctIds (updatePools pools id n ws) := by
  unfold distinctIds at h ⊢
  by_cases hm : id ∈ pools.map Pool.id
  · rw [updatePools_ids_of_mem pools id n ws hm]
    exact h
  · rw [updatePools_ids_of_not_mem pools id n ws hm]
    simp [List.nodup_append, h, hm]

theorem registered_nodup (pools ps : List Pool) (g : String) (ws : Nat)
    (h : distinctIds pools)
    (hr : RegisterGreeting pools g ws = RegisterResult.registered ps) :
    distinctIds ps := by
  unfold RegisterGreeting at hr
  cases hp : parseGreeting g with
  | oobPanic => rw [hp] at hr; cases hr
  | parseErr => rw [hp] at hr; cases hr
  | ok id n =>
    rw [hp] at hr
    have hps : ps = updatePools pools id n ws := by
      cases hr
      rfl
    subst hps
    exact updatePools_nodup pools id n ws h

theorem clean_fst_nodup (pools : List Pool) (h : distinctIds pools) :
    distinctIds (clean pools).1 := by
  unfold distinctIds at h ⊢
  rw [clean_fst]
  exact h.sublist ((List.filter_sublist pools).map Pool.id)

theorem map_shutdown_ids (pools : List Pool) :
    (pools.map Pool.Shutdown).map Pool.id = pools.map Pool.id := by
  induction pools with
  | nil => rfl
  | cons p ps ih => simp [ih, Pool.Shutdown]

theorem applyOp_nodup (pools : List Pool) (op : ServerOp)
    (h : distinctIds pools) : distinctIds (applyOp pools op) := by
  cases op with
  | register g ws =>
    cases hr : RegisterGreeting pools g ws with
    | panicked => simpa only [applyOp, hr] using h
    | aborted => simpa only [applyOp, hr] using h
    | registered ps =>
      simpa only [applyOp, hr] using registered_nodup pools ps g ws h hr
  | sweep => exact clean_fst_nodup pools h
  | shutdown =>
    have h2 : distinctIds (pools.map Pool.Shutdown) := by
      unfold distinctIds at h ⊢
      rw [map_shutdown_ids]
      exact h
    exact clean_fst_nodup (pools.map Pool.Shutdown) h2

theorem foldl_applyOp_nodup (ops : List ServerOp) (pools : List Pool)
    (h : distinctIds pools) : distinctIds (ops.foldl applyOp pools) := by
  induction ops generalizing pools with
  | nil => exact h
  | cons op rest ih => exact ih (applyOp pools op) (applyOp_nodup pools op h)

/-- C8: at most one Pool per Identity: the pool-id list is duplicate-free
initially and stays so under every registration, every sweep, and
shutdown; hence along any sequence of registry operations from the empty
registry. -/
theorem at_most_one_pool_per_identity :
    distinctIds []
    ∧ (∀ pools op, distinctIds pools → distinctIds (applyOp pools op))
    ∧ (∀ ops : List ServerOp, distinctIds (ops.foldl applyOp [])) := by
  refine ⟨List.nodup_nil, applyOp_nodup, ?_⟩
  intro ops
  exact foldl_applyOp_nodup ops [] List.nodup_nil

theorem at_most_one_pool_per_identity_witness :
    distinctIds (applyOp [NewPool "a", NewPool "b"] ServerOp.sweep) :=
  at_most_one_pool_per_identity.2.1 [NewPool "a", NewPool "b"] ServerOp.sweep
    (by decide)

/-- C9: the sweep keeps exactly the non-empty pools (in order), removes
exactly the empty ones applying `Shutdown` to each removed pool, never
removes a pool holding a live connection, and leaves no empty pool in the
registry. -/
theorem sweep_removes_exactly_empty (pools : List Pool) :
    (clean pools).1 = pools.filter (fun p => !p.IsEmpty)
    ∧ (clean pools).2 = (pools.filter (fun p => p.IsEmpty)).map Pool.Shutdown
    ∧ (∀ p ∈ (clean pools).1, p.IsEmpty = false)
    ∧ (∀ p ∈ pools, p.IsEmpty = false → p ∈ (clean pools).1) := by
  refine ⟨clean_fst pools, clean_snd pools, ?_, ?_⟩
  · intro p hp
    rw [clean_fst] at hp
    have := (List.mem_filter.mp hp).2
    simpa using this
  · intro p hp he
    rw [clean_fst]
    exact List.mem_filter.mpr ⟨hp, by simp [he]⟩

theorem sweep_removes_exactly_empty_witness :
    (Pool.mk "b" 1 [Connection.mk 0 ConnStatus.Idle]) ∈
      (clean [NewPool "a", Pool.mk "b" 1 [Connection.mk 0 ConnStatus.Idle]]).1 :=
  (sweep_removes_exactly_empty
      [NewPool "a", Pool.mk "b" 1 [Connection.mk 0 ConnStatus.Idle]]).2.2.2
    (Pool.mk "b" 1 [Connection.mk 0 ConnStatus.Idle]) (by decide) (by decide)

theorem dispatchSteps_timeout (d : Nat) (it : Iter) (rest : List Iter)
    (h1 : d ≤ it.time) :
    dispatchSteps d (it :: rest) = (0, DispatchStatus.TimedOut) := by
  conv_lhs => unfold dispatchSteps
  rw [if_pos h1]

theorem dispatchSteps_noPools (d : Nat) (it : Iter) (rest : List Iter)
    (h1 : ¬ d ≤ it.time) (h2 : it.pools.isEmpty = true) :
    dispatchSteps d (it :: rest) = (0, DispatchStatus.Unavailable) := by
  conv_lhs => unfold dispatchSteps
  rw [if_neg h1, if_pos h2]

theorem dispatchSteps_none (d : Nat) (it : Iter) (rest : List Iter)
    (h1 : ¬ d ≤ it.time) (h2 : it.pools.isEmpty = false) (hs : it.sel = none) :
    dispatchSteps d (it :: rest) =
      ((dispatchSteps d rest).1 + 1, (dispatchSteps d rest).2) := by
  conv_lhs => unfold dispatchSteps
  rw [if_neg h1, if_neg (by simp [h2]), hs]

theorem dispatchSteps_taken (d : Nat) (it : Iter) (rest : List Iter)
    (c0 : Connection) (h1 : ¬ d ≤ it.time) (h2 : it.pools.isEmpty = false)
    (hs : it.sel = some c0) (ht : (Connection.Take c0).1 = true) :
    dispatchSteps d (it :: rest) =
      (0, DispatchStatus.Matched (Connection.Take c0).2) := by
  conv_lhs => unfold dispatchSteps
  rw [if_neg h1, if_neg (by simp [h2]), hs]
  show (if (Connection.Take c0).1 = true
      then ((0 : Nat), DispatchStatus.Matched (Connection.Take c0).2)
      else ((dispatchSteps d rest).1 + 1, (dispatchSteps d rest).2)) = _
  rw [if_pos ht]

theorem dispatchSteps_stale (d : Nat) (it : Iter) (rest : List Iter)
    (c0 : Connection) (h1 : ¬ d ≤ it.time) (h2 : it.pools.isEmpty = false)
    (hs : it.sel = some c0) (ht : (Connection.Take c0).1 = false) :
    dispatchSteps d (it :: rest) =
      ((dispatchSteps d rest).1 + 1, (dispatchSteps d rest).2) := by
  conv_lhs => unfold dispatchSteps
  rw [if_neg h1, if_neg (by simp [h2]), hs]
  show (if (Connection.Take c0).1 = true
      then ((0 : Nat), DispatchStatus.Matched (Connection.Take c0).2)
      else ((dispatchSteps d rest).1 + 1, (dispatchSteps d rest).2)) = _
  rw [if_neg (by simp [ht])]

theorem dispatchLoop_terminates (d : Nat) (sched : List Iter)
    (h : ∃ it ∈ sched, d ≤ it.time) :
    dispatchLoop d sched ≠ DispatchStatus.Scanning := by
  induction sched with
  | nil => simp at h
  | cons it rest ih =>
    obtain ⟨it0, hmem, hle⟩ := h
    unfold dispatchLoop
    by_cases h1 : d ≤ it.time
    · rw [dispatchSteps_timeout d it rest h1]
      simp
    · have hrest : it0 ∈ rest := by
        rcases List.mem_cons.mp hmem with h0 | h0
        · exact absurd (h0 ▸ hle) h1
        · exact h0
      by_cases h2 : it.pools.isEmpty = true
      · rw [dispatchSteps_noPools d it rest h1 h2]
        simp
      · have h2f : it.pools.isEmpty = false := by simpa using h2
        cases hs : it.sel with
        | none =>
          rw [dispatchSteps_none d it rest h1 h2f hs]
          exact ih ⟨it0, hrest, hle⟩
        | some c =>
          by_cases ht : (Connection.Take c).1 = true
          · rw [dispatchSteps_taken d it rest c h1 h2f hs ht]
            simp
          · have htf : (Connection.Take c).1 = false := by simpa using ht
            rw [dispatchSteps_stale d it rest c h1 h2f hs htf]
            exact ih ⟨it0, hrest, hle⟩

/-- C2: once the dispatcher consumes a `ConnectionRequest` (and real time
passes, so the deadline is eventually observed), the request's single-slot
channel always ends closed, at most one connection is ever sent into it,
exactly one is sent when the resolution is a match, and none otherwise. -/
theorem dispatch_exactly_one_outcome (d : Nat) (sched : List Iter)
    (h : ∃ it ∈ sched, d ≤ it.time) :
    slotClosed (dispatchLoop d sched) = true
    ∧ (deliveries (dispatchLoop d sched)).length ≤ 1
    ∧ (∀ c, dispatchLoop d sched = DispatchStatus.Matched c →
        deliveries (dispatchLoop d sched) = [c])
    ∧ ((∀ c, dispatchLoop d sched ≠ DispatchStatus.Matched c) →
        deliveries (dispatchLoop d sched) = []) := by
  have hterm := dispatchLoop_terminates d sched h
  cases hr : dispatchLoop d sched with
  | Matched c =>
    refine ⟨rfl, by simp [deliveries], ?_, ?_⟩
    · intro c2 hc2
      injection hc2 with h3
      rw [h3]
      rfl
    · intro hno
      exact absurd rfl (hno c)
  | TimedOut => exact ⟨rfl, by simp [deliveries], by simp, fun _ => rfl⟩
  | Unavailable => exact ⟨rfl, by simp [deliveries], by simp, fun _ => rfl⟩
  | Scanning => exact absurd hr hterm

theorem dispatch_exactly_one_outcome_witness :
    slotClosed (dispatchLoop 5 [Iter.mk 9 [] none]) = true :=
  (dispatch_exactly_one_outcome 5 [Iter.mk 9 [] none]
    ⟨Iter.mk 9 [] none, by decide, by decide⟩).1

/-- C3: a delivered connection was successfully taken: every `Matched c`
comes from consuming a readiness token `some c0` in the schedule with
`c0.Take()` returning true and producing `c` (now Busy); and when `Take()`
returns false the dispatcher delivers nothing at that pass and retries the
scan loop on the rest of the schedule. -/
theorem matched_was_taken (d : Nat) (sched : List Iter) :
    (∀ c, dispatchLoop d sched = DispatchStatus.Matched c →
      c.status = ConnStatus.Busy
      ∧ ∃ it ∈ sched, ∃ c0, it.sel = some c0
          ∧ (Connection.Take c0).1 = true ∧ (Connection.Take c0).2 = c)
    ∧ (∀ it rest c0, sched = it :: rest → ¬ d ≤ it.time →
        it.pools.isEmpty = false → it.sel = some c0 →
        (Connection.Take c0).1 = false →
        dispatchLoop d sched = dispatchLoop d rest) := by
  constructor
  · induction sched with
    | nil => intro c hc; cases hc
    | cons it rest ih =>
      intro c hc
      unfold dispatchLoop at hc
      by_cases h1 : d ≤ it.time
      · rw [dispatchSteps_timeout d it rest h1] at hc
        simp at hc
      · by_cases h2 : it.pools.isEmpty = true
        · rw [dispatchSteps_noPools d it rest h1 h2] at hc
          simp at hc
        · have h2f : it.pools.isEmpty = false := by simpa using h2
          cases hs : it.sel with
          | none =>
            rw [dispatchSteps_none d it rest h1 h2f hs] at hc
            rcases ih c hc with ⟨hb, it0, hmem, rest0⟩
            exact ⟨hb, it0, List.mem_cons_of_mem it hmem, rest0⟩
          | some c0 =>
            by_cases ht : (Connection.Take c0).1 = true
            · rw [dispatchSteps_taken d it rest c0 h1 h2f hs ht] at hc
              have hc1 : DispatchStatus.Matched (Connection.Take c0).2
                  = DispatchStatus.Matched c := hc
              have hc2 : (Connection.Take c0).2 = c := by
                injection hc1
              refine ⟨?_, it, List.mem_cons_self it rest, c0, hs, ht, hc2⟩
              rw [← hc2]
              exact take_true_busy c0 ht
            · have htf : (Connection.Take c0).1 = false := by simpa using ht
              rw [dispatchSteps_stale d it rest c0 h1 h2f hs htf] at hc
              rcases ih c hc with ⟨hb, it0, hmem, rest0⟩
              exact ⟨hb, it0, List.mem_cons_of_mem it hmem, rest0⟩
  · intro it rest c0 hsched h1 h2 hs ht
    subst hsched
    unfold dispatchLoop
    rw [dispatchSteps_stale d it rest c0 h1 h2 hs ht]

theorem matched_was_taken_witness :
    (Connection.mk 0 ConnStatus.Busy).status = ConnStatus.Busy
    ∧ ∃ it ∈ [Iter.mk 0 [NewPool "a"] (some (Connection.mk 0 ConnStatus.Idle))],
        ∃ c0, it.sel = some c0 ∧ (Connection.Take c0).1 = true
          ∧ (Connection.Take c0).2 = Connection.mk 0 ConnStatus.Busy :=
  (matched_was_taken 5
      [Iter.mk 0 [NewPool "a"] (some (Connection.mk 0 ConnStatus.Idle))]).1
    (Connection.mk 0 ConnStatus.Busy) (by decide)

/-- C4: with the pool list empty at the snapshot (and the deadline not yet
elapsed), the scan loop exits at that very pass with `Unavailable`, no
matter how much schedule (time) remains; and the `Request` handler's own
pre-check replies "No proxy available" before any dispatch when the pool
list is empty. -/
theorem empty_registry_unavailable (d : Nat) (it : Iter) (rest : List Iter)
    (dst : String) (hdst : dst ≠ "")
    (ht : ¬ d ≤ it.time) (hp : it.pools = []) :
    dispatchLoop d (it :: rest) = DispatchStatus.Unavailable
    ∧ handleRequestPre dst true [] = RequestStep.noProxy := by
  constructor
  · unfold dispatchLoop dispatchSteps
    rw [if_neg ht, hp]
    rfl
  · unfold handleRequestPre
    simp [hdst]

theorem empty_registry_unavailable_witness :
    dispatchLoop 30 [Iter.mk 0 [] none] = DispatchStatus.Unavailable :=
  (empty_registry_unavailable 30 (Iter.mk 0 [] none) [] "http-dest"
    (by decide) (by decide) rfl).1

/-- C5: when the deadline is observed and no pass of the scan loop ever
takes a connection successfully (pools stay non-empty, every consumed
token is stale), the request resolves `TimedOut`, nothing is delivered
into the slot, and every failed `Take` left its connection unchanged — no
connection is made Busy as a side effect of this request. -/
theorem timeout_resolves_timedout (d : Nat) (sched : List Iter)
    (hdl : ∃ it ∈ sched, d ≤ it.time)
    (hpools : ∀ it ∈ sched, it.pools.isEmpty = false)
    (htake : ∀ it ∈ sched, ∀ c, it.sel = some c → (Connection.Take c).1 = false) :
    dispatchLoop d sched = DispatchStatus.TimedOut
    ∧ deliveries (dispatchLoop d sched) = []
    ∧ ∀ it ∈ sched, ∀ c, it.sel = some c → (Connection.Take c).2 = c := by
  have hmain : dispatchLoop d sched = DispatchStatus.TimedOut := by
    induction sched with
    | nil => simp at hdl
    | cons it rest ih =>
      obtain ⟨it0, hmem, hle⟩ := hdl
      unfold dispatchLoop dispatchSteps
      by_cases h1 : d ≤ it.time
      · simp [h1]
      · rw [if_neg h1]
        have hrest : it0 ∈ rest := by
          rcases List.mem_cons.mp hmem with h0 | h0
          · exact absurd (h0 ▸ hle) h1
          · exact h0
        have h2 := hpools it (List.mem_cons_self it rest)
        simp only [h2, if_false, Bool.false_eq_true]
        cases hs : it.sel with
        | none =>
          exact ih ⟨it0, hrest, hle⟩ (fun i hi => hpools i (List.mem_cons_of_mem it hi))
            (fun i hi => htake i (List.mem_cons_of_mem it hi))
        | some c0 =>
          have ht := htake it (List.mem_cons_self it rest) c0 hs
          simp only [ht, if_false, Bool.false_eq_true]
          exact ih ⟨it0, hrest, hle⟩ (fun i hi => hpools i (List.mem_cons_of_mem it hi))
            (fun i hi => htake i (List.mem_cons_of_mem it hi))
  refine ⟨hmain, by rw [hmain]; rfl, ?_⟩
  intro it hit c hc
  exact take_false_eq c (htake it hit c hc)

theorem timeout_resolves_timedout_witness :
    dispatchLoop 5
      [Iter.mk 9 [Pool.mk "a" 1 [Connection.mk 0 ConnStatus.Busy]]
        (some (Connection.mk 0 ConnStatus.Busy))] = DispatchStatus.TimedOut :=
  (timeout_resolves_timedout 5
    [Iter.mk 9 [Pool.mk "a" 1 [Connection.mk 0 ConnStatus.Busy]]
      (some (Connection.mk 0 ConnStatus.Busy))]
    ⟨Iter.mk 9 [Pool.mk "a" 1 [Connection.mk 0 ConnStatus.Busy]]
      (some (Connection.mk 0 ConnStatus.Busy)), by decide, by decide⟩
    (by decide) (by decide)).1

theorem dispatchSteps_before_deadline (d : Nat) (sched : List Iter) (k : Nat)
    (hk : k < (dispatchSteps d sched).1) :
    ∃ it, sched.get? k = some it ∧ it.time < d := by
  induction sched generalizing k with
  | nil => simp [dispatchSteps] at hk
  | cons it rest ih =>
    by_cases h1 : d ≤ it.time
    · rw [dispatchSteps_timeout d it rest h1] at hk
      simp at hk
    · by_cases h2 : it.pools.isEmpty = true
      · rw [dispatchSteps_noPools d it rest h1 h2] at hk
        simp at hk
      · have h2f : it.pools.isEmpty = false := by simpa using h2
        cases hs : it.sel with
        | none =>
          rw [dispatchSteps_none d it rest h1 h2f hs] at hk
          cases k with
          | zero => exact ⟨it, rfl, Nat.lt_of_not_le h1⟩
          | succ k2 =>
            have hk2 : k2 < (dispatchSteps d rest).1 := Nat.lt_of_succ_lt_succ hk
            rcases ih k2 hk2 with ⟨it2, hg, hlt⟩
            exact ⟨it2, hg, hlt⟩
        | some c0 =>
          by_cases ht : (Connection.Take c0).1 = true
          · rw [dispatchSteps_taken d it rest c0 h1 h2f hs ht] at hk
            simp at hk
          · have htf : (Connection.Take c0).1 = false := by simpa using ht
            rw [dispatchSteps_stale d it rest c0 h1 h2f hs htf] at hk
            cases k with
            | zero => exact ⟨it, rfl, Nat.lt_of_not_le h1⟩
            | succ k2 =>
              have hk2 : k2 < (dispatchSteps d rest).1 := Nat.lt_of_succ_lt_succ hk
              rcases ih k2 hk2 with ⟨it2, hg, hlt⟩
              exact ⟨it2, hg, hlt⟩

/-- C6: the per-request deadline is `withTimeout t0 T = t0 + T` — the
configured timeout `T` counted from the time `t0` at which the dispatcher
accepts the request (`context.WithTimeout` right after the rendezvous on
the dispatcher channel) — and it bounds the dispatch: the request resolves
(once the deadline is observable in the schedule), and every pass the loop
runs beyond, short of its resolution pass, happens strictly before the
deadline. -/
theorem deadline_bounds_dispatch (t0 T : Nat) (sched : List Iter)
    (h : ∃ it ∈ sched, withTimeout t0 T ≤ it.time) :
    dispatchLoop (withTimeout t0 T) sched ≠ DispatchStatus.Scanning
    ∧ ∀ k, k < (dispatchSteps (withTimeout t0 T) sched).1 →
        ∃ it, sched.get? k = some it ∧ it.time < t0 + T := by
  refine ⟨dispatchLoop_terminates (withTimeout t0 T) sched h, ?_⟩
  intro k hk
  exact dispatchSteps_before_deadline (withTimeout t0 T) sched k hk

theorem deadline_bounds_dispatch_witness :
    dispatchLoop (withTimeout 2 3) [Iter.mk 7 [] none] ≠ DispatchStatus.Scanning :=
  (deadline_bounds_dispatch 2 3 [Iter.mk 7 [] none]
    ⟨Iter.mk 7 [] none, by decide, by decide⟩).1

theorem shutdown_pool_empty (p : Pool) : (Pool.Shutdown p).IsEmpty = true := by
  unfold Pool.Shutdown Pool.IsEmpty
  simp [List.all_map, Connection.close, ConnStatus.isClosed, Function.comp]

theorem clean_shutdown_nil (pools : List Pool) :
    (clean (pools.map Pool.Shutdown)).1 = [] := by
  rw [clean_fst]
  induction pools with
  | nil => rfl
  | cons p ps ih => simp [List.filter, shutdown_pool_empty p, ih]

/-- C10: after `Server.Shutdown`, the dispatcher channel is closed so the
consumption loop's receive reports a closed channel and the loop exits;
every pool has been shut down, closing all its connections; the registry
has been swept (no pool remains); and an in-flight request's next scan
pass, snapshotting the post-shutdown (empty) registry, resolves it as
`Unavailable` — no permanent hang. -/
theorem shutdown_drains (s : ServerState) (d t : Nat) (sel : Option Connection)
    (rest : List Iter) (ht : ¬ d ≤ t) :
    (ServerState.shutdownServer s).pools = []
    ∧ (ServerState.shutdownServer s).dispatcherClosed = true
    ∧ (ServerState.shutdownServer s).doneClosed = true
    ∧ recvDispatcher (ServerState.shutdownServer s).dispatcherClosed []
        = RecvResult.chanClosed
    ∧ dispatchLoop d
        (Iter.mk t (ServerState.shutdownServer s).pools sel :: rest)
        = DispatchStatus.Unavailable
    ∧ ∀ p ∈ s.pools, ∀ c ∈ (Pool.Shutdown p).conns, c.status = ConnStatus.Closed := by
  have hnil : (ServerState.shutdownServer s).pools = [] :=
    clean_shutdown_nil s.pools
  refine ⟨hnil, rfl, rfl, rfl, ?_, ?_⟩
  · unfold dispatchLoop dispatchSteps
    rw [if_neg ht, hnil]
    rfl
  · intro p _ c hc
    unfold Pool.Shutdown at hc
    rcases List.mem_map.mp hc with ⟨c0, _, hc0⟩
    rw [← hc0]
    rfl

theorem shutdown_drains_witness :
    (ServerState.shutdownServer
      (ServerState.mk [Pool.mk "a" 1 [Connection.mk 0 ConnStatus.Idle]]
        false false)).pools = [] :=
  (shutdown_drains
    (ServerState.mk [Pool.mk "a" 1 [Connection.mk 0 ConnStatus.Idle]] false false)
    30 0 none [] (by decide)).1

end Wsp
